import Mathlib

/-!
# Verification of the `znet` provisioning core (`znet/znet.go`)

Shallow embedding of the single source file `znet/znet.go` of this
repository: hierarchy path resolution, recursive layered data merge,
template discovery and rendering, and the device provisioning sequence
of `ConfigureNetworkHost`.

External collaborators that the source file calls but that are not part
of the repository (the YAML loader, the `mergo` merge utility, the
template engine, the filesystem, and the junos device session) are
modelled as explicit parameters or, where the specification fixes their
behaviour, as definitions modelled from the spec.
-/

namespace Znet

/-- Modelled from the spec: `HostData` is "a recursively-structured value
(null | scalar | ordered-key mapping | sequence) representing the merged
configuration for one host".  The Go declaration of `HostData` is not part
of the single source file. -/
inductive HostData where
  | null : HostData
  | scalar (s : String) : HostData
  | mapping (entries : List (String × HostData)) : HostData
  | sequence (items : List HostData) : HostData
deriving Repr

/-- First value bound to key `k` in an ordered-key mapping's entry list. -/
def lookupKey (k : String) : List (String × HostData) → Option HostData
  | [] => none
  | (k', v) :: rest => if k' = k then some v else lookupKey k rest

/-- Remove every entry bound to key `k` from an entry list. -/
def removeKey (k : String) : List (String × HostData) → List (String × HostData)
  | [] => []
  | (k', v) :: rest => if k' = k then removeKey k rest else (k', v) :: removeKey k rest

theorem sizeOf_lookupKey {k : String} :
    ∀ {l : List (String × HostData)} {w : HostData}, lookupKey k l = some w → sizeOf w < sizeOf l := by
  intro l
  induction l with
  | nil => intro w h; simp [lookupKey] at h
  | cons p rest ih =>
    intro w h
    obtain ⟨k', v⟩ := p
    simp only [lookupKey] at h
    split at h
    · cases h
      simp
      omega
    · have := ih h
      simp
      omega

theorem sizeOf_removeKey {k : String} :
    ∀ {l : List (String × HostData)}, sizeOf (removeKey k l) ≤ sizeOf l := by
  intro l
  induction l with
  | nil => simp [removeKey]
  | cons p rest ih =>
    obtain ⟨k', v⟩ := p
    simp only [removeKey]
    split
    · simp; omega
    · simp; omega

mutual

/-- Modelled from the spec: the recursive override merge performed by
`mergo.Merge(&hostData, fileHostData, mergo.WithOverride)` in
`DataForDevice`.  "For any field present in the newly-loaded layer, its
value replaces (for scalars/sequences) or recursively merges (for
mappings) into the accumulator; fields not present in the new layer are
left untouched"; "mappings merge key-by-key (recursive), sequences and
scalars are replaced wholesale, not concatenated".  The first argument is
the accumulator (destination), the second the newly-loaded layer
(source). -/
def merge : HostData → HostData → HostData
  | .mapping a, .mapping b => .mapping (mergeEntries a b)
  | _, src => src
termination_by d s => sizeOf d + sizeOf s

/-- Key-by-key merge of two ordered entry lists: destination keys keep
their relative order and are merged with the source's binding when one
exists; source-only keys are appended afterwards in source order. -/
def mergeEntries : List (String × HostData) → List (String × HostData) → List (String × HostData)
  | [], src => src
  | (k, v) :: rest, src =>
    match h : lookupKey k src with
    | some w => (k, merge v w) :: mergeEntries rest (removeKey k src)
    | none => (k, v) :: mergeEntries rest src
termination_by a b => sizeOf a + sizeOf b
decreasing_by
  all_goals simp
  all_goals first
    | (have h1 := sizeOf_lookupKey h
       have h2 := @sizeOf_removeKey k src
       omega)
    | omega

end

/-- Modelled from the spec: "NetworkHost: identity of a target device — a
symbolic name, a connection address, and (populated during provisioning)
its merged configuration data."  The Go declaration of `NetworkHost` is
not part of the single source file; these are exactly the fields
`znet.go` reads (`Name`, `HostName`) and writes (`Data`). -/
structure NetworkHost where
  Name : String
  HostName : String
  Data : HostData
deriving Repr

/-- Modelled from the spec: the top-level settings document ("device
credentials: username, private-key path"); its Go declaration is not part
of the single source file and `ConfigureNetworkHost` never touches it. -/
structure Config where
  username : String
  keyfile : String
deriving Repr, DecidableEq

/-- Modelled from the spec: the data-hierarchy document "with fields
`Hierarchy` (ordered list of path-template strings), `TemplatePaths`
(ordered list of path-template strings), `DataDir`, `TemplateDir`";
its Go declaration is not part of the single source file. -/
structure Data where
  Hierarchy : List String
  TemplatePaths : List String
  DataDir : String
  TemplateDir : String
deriving Repr, DecidableEq

/-- The fields of the `Znet` receiver that `znet.go` declares and the
embedded functions read (`z.listener` is never touched by them). -/
structure Znet where
  ConfigDir : String
  Config : Config
  Data : Data
deriving Repr, DecidableEq

/-- Outcome observed by the code of one `os.Stat` call: success
(`err == nil`), a not-exist error (`os.IsNotExist(err)`), or any other
error. -/
inductive StatResult where
  | ok : StatResult
  | notExist : StatResult
  | otherErr : StatResult
deriving Repr, DecidableEq

/-- Result of parsing and executing one template against a host, as the
code observes it: the bytes left in the output buffer, and whether the
parse or the execution reported an error (each is only logged by the
source). -/
structure RenderResult where
  output : String
  parseErr : Option String
  execErr : Option String
deriving Repr, DecidableEq

/-- The external template engine (`github.com/alecthomas/template`):
parsing and executing a template string against a host is opaque to the
repository, so it is a parameter of the embedding. -/
structure TemplateEngine where
  render : NetworkHost → String → RenderResult

/-- The external filesystem and YAML loader, opaque to the repository:
`stat` models `os.Stat`, `glob` models `filepath.Glob` (which either
fails on a bad pattern or yields the matches in glob order), `readFile`
models `ioutil.ReadFile`, and `loadYaml` models `loadYamlFile`
unmarshalling the file at a path into a `HostData`. -/
structure FS where
  stat : String → StatResult
  glob : String → Except String (List String)
  readFile : String → Except String String
  loadYaml : String → HostData

/-- Log events emitted by the embedded functions, one constructor per
logging statement in the source that the claims talk about. -/
inductive LogEvent where
  | warnDataFileMissing (path : String) : LogEvent
  | warnTemplatePathMissing (path : String) : LogEvent
  | errGlob (dir : String) : LogEvent
deriving Repr, DecidableEq

/-- Payload of a junos `session.Config` call: the source passes either a
`[]string` (the rendered templates) or the single command string
`"rollback"`. -/
inductive ConfigPayload where
  | lines (ls : List String) : ConfigPayload
  | cmd (s : String) : ConfigPayload
deriving Repr, DecidableEq

/-- One operation submitted to the junos device session, in the order the
source submits them. -/
inductive SessionOp where
  | lock : SessionOp
  | config (payload : ConfigPayload) (format : String) (commitCheck : Bool) : SessionOp
  | diff (n : Nat) : SessionOp
  | commit : SessionOp
  | unlock : SessionOp
  | close : SessionOp
deriving Repr, DecidableEq

/-- Responses of the junos device session, opaque to the repository: each
fallible call's error outcome, and the diff text the session returns.
The source only logs the errors, so only `diffResult` influences control
flow. -/
structure SessionEnv where
  lockErr : Option String
  configErr : Option String
  diffResult : String
  diffErr : Option String
  commitErr : Option String
  rollbackErr : Option String
  unlockErr : Option String
deriving Repr, DecidableEq

/-- `TemplateStringsForDevice` (znet.go): renders each template string in
order against the host, appending whatever the output buffer holds — also
when the parse or the execution failed, which the source merely logs. -/
def TemplateStringsForDevice (eng : TemplateEngine) (_z : Znet) (host : NetworkHost)
    (templates : List String) : List String :=
  templates.foldl (fun strings t => strings ++ [(eng.render host t).output]) []

/-- The absolute data-file path `ConfigDir/DataDir/p` built by
`HierarchyForDevice`. -/
def dataAbs (z : Znet) (p : String) : String :=
  z.ConfigDir ++ "/" ++ z.Data.DataDir ++ "/" ++ p

/-- The absolute template-directory path `ConfigDir/TemplateDir/p` built
by `TemplatesForDevice`. -/
def templateAbs (z : Znet) (p : String) : String :=
  z.ConfigDir ++ "/" ++ z.Data.TemplateDir ++ "/" ++ p

/-- `HierarchyForDevice` (znet.go): renders `z.Data.Hierarchy`, then keeps
each absolute path whose `stat` succeeds, warns on a not-exist error, and
does nothing on any other error.  Returns the kept files and the emitted
log events. -/
def HierarchyForDevice (fs : FS) (eng : TemplateEngine) (z : Znet) (host : NetworkHost) :
    List String × List LogEvent :=
  let paths := TemplateStringsForDevice eng z host z.Data.Hierarchy
  paths.foldl
    (fun acc p =>
      let abs := dataAbs z p
      match fs.stat abs with
      | .ok => (acc.1 ++ [abs], acc.2)
      | .notExist => (acc.1, acc.2 ++ [.warnDataFileMissing abs])
      | .otherErr => acc)
    ([], [])

/-- `TemplatesForDevice` (znet.go): renders `z.Data.TemplatePaths`, then
for each absolute directory whose `stat` succeeds globs it for `*.tmpl`
files and appends all matches (logging a glob failure and appending
nothing), warns on a not-exist error, and does nothing on any other
error.  Returns the collected files and the emitted log events. -/
def TemplatesForDevice (fs : FS) (eng : TemplateEngine) (z : Znet) (host : NetworkHost) :
    List String × List LogEvent :=
  let paths := TemplateStringsForDevice eng z host z.Data.TemplatePaths
  paths.foldl
    (fun acc p =>
      let abs := templateAbs z p
      match fs.stat abs with
      | .ok =>
        match fs.glob (abs ++ "/*.tmpl") with
        | .error _ => (acc.1, acc.2 ++ [.errGlob abs])
        | .ok foundFiles => (acc.1 ++ foundFiles, acc.2)
      | .notExist => (acc.1, acc.2 ++ [.warnTemplatePathMissing abs])
      | .otherErr => acc)
    ([], [])

/-- `DataForDevice` (znet.go): starting from an empty `HostData`, loads
each hierarchy file in order and override-merges it into the
accumulator. -/
def DataForDevice (fs : FS) (eng : TemplateEngine) (z : Znet) (host : NetworkHost) : HostData :=
  (HierarchyForDevice fs eng z host).1.foldl
    (fun hostData f => merge hostData (fs.loadYaml f))
    (.mapping [])

/-- `RenderHostTemplateFile` (znet.go): reads the file (an unreadable file
leaves the byte slice empty, the error being only logged) and renders its
contents against the host. -/
def RenderHostTemplateFile (fs : FS) (eng : TemplateEngine) (_z : Znet) (host : NetworkHost)
    (path : String) : String :=
  let str := match fs.readFile path with
    | .ok s => s
    | .error _ => ""
  (eng.render host str).output

/-- `ConfigureNetworkHost` (znet.go), from the point where a device
session handle has been successfully obtained (`junos.NewSession`
succeeded; its `Close` is deferred at that moment and runs when the call
exits).  Computes the templates for the host, assigns the merged data
onto the host, renders every template file against the updated host, and
then drives the session: lock, push, diff, then — only when the diff is
longer than one byte — commit when `commit` is set, else a rollback
config; finally unlock, and the deferred close runs last.  Every error is
only logged, so no step is skipped because an earlier one failed.
Returns the (unchanged) receiver, the updated host, and the ordered
session operations. -/
def ConfigureNetworkHost (fs : FS) (eng : TemplateEngine) (env : SessionEnv) (z : Znet)
    (host : NetworkHost) (commit : Bool) : Znet × NetworkHost × List SessionOp :=
  let templates := (TemplatesForDevice fs eng z host).1
  let host := { host with Data := DataForDevice fs eng z host }
  let renderedTemplates := templates.foldl
    (fun acc t => acc ++ [RenderHostTemplateFile fs eng z host t]) []
  let diff := env.diffResult
  let ops :=
    [SessionOp.lock, .config (.lines renderedTemplates) "text" false, .diff 0]
      ++ (if diff.length > 1 then
            (if commit then [SessionOp.commit]
             else [SessionOp.config (.cmd "rollback") "text" false])
          else [])
      ++ [SessionOp.unlock]
      ++ [SessionOp.close]
  (z, host, ops)

/-- `true` exactly on the `mapping` constructor. -/
def isMapping : HostData → Bool
  | .mapping _ => true
  | _ => false

/-- Value bound to key `k` at the top level of a `HostData`, when it is a
mapping. -/
def valueAt (k : String) : HostData → Option HostData
  | .mapping m => lookupKey k m
  | _ => none

/-- Merge of an optional destination binding with an optional source
binding: the key-level effect of one override-merge step. -/
def optMerge : Option HostData → Option HostData → Option HostData
  | some v, some w => some (merge v w)
  | some v, none => some v
  | none, o => o

/-- The merged value a key receives from the ordered list of layer
bindings that define it: no layer defines it, or the bindings fold by
override merge. -/
def mergedAt : List HostData → Option HostData
  | [] => none
  | v :: vs => some (vs.foldl merge v)

theorem lookupKey_removeKey {k k' : String} (hne : k ≠ k') :
    ∀ l : List (String × HostData), lookupKey k (removeKey k' l) = lookupKey k l := by
  intro l
  induction l with
  | nil => rfl
  | cons p rest ih =>
    obtain ⟨k'', v⟩ := p
    by_cases h1 : k'' = k'
    · subst h1
      have : ¬ (k'' = k) := fun h => hne h.symm
      simp [removeKey, lookupKey, this, ih]
    · simp only [removeKey, if_neg h1, lookupKey]
      by_cases h2 : k'' = k
      · simp [h2]
      · simp [h2, ih]

theorem lookupKey_mergeEntries (k : String) :
    ∀ (a b : List (String × HostData)),
      lookupKey k (mergeEntries a b) = optMerge (lookupKey k a) (lookupKey k b) := by
  intro a
  induction a with
  | nil =>
    intro b
    simp [mergeEntries, lookupKey, optMerge]
  | cons p rest ih =>
    intro b
    obtain ⟨k', v⟩ := p
    rcases hb : lookupKey k' b with _ | w
    · rw [show mergeEntries ((k', v) :: rest) b = (k', v) :: mergeEntries rest b by
        rw [mergeEntries]; rw [hb]]
      by_cases hk : k' = k
      · subst hk
        simp [lookupKey, hb, optMerge]
      · simp [lookupKey, hk, ih]
    · rw [show mergeEntries ((k', v) :: rest) b = (k', merge v w) :: mergeEntries rest (removeKey k' b) by
        rw [mergeEntries]; rw [hb]]
      by_cases hk : k' = k
      · subst hk
        simp [lookupKey, hb, optMerge]
      · simp only [lookupKey, if_neg hk, ih, lookupKey_removeKey (fun h => hk h.symm)]

theorem foldl_merge_mapping :
    ∀ (es : List (List (String × HostData))) (a : List (String × HostData)),
      (es.map HostData.mapping).foldl merge (.mapping a)
        = .mapping (es.foldl (fun acc e => mergeEntries acc e) a) := by
  intro es
  induction es with
  | nil => intro a; rfl
  | cons e rest ih =>
    intro a
    simp only [List.map_cons, List.foldl_cons]
    rw [show merge (.mapping a) (.mapping e) = .mapping (mergeEntries a e) by rw [merge]]
    exact ih (mergeEntries a e)

theorem lookupKey_foldl_mergeEntries (k : String) :
    ∀ (es : List (List (String × HostData))) (a : List (String × HostData)),
      lookupKey k (es.foldl (fun acc e => mergeEntries acc e) a)
        = es.foldl (fun o e => optMerge o (lookupKey k e)) (lookupKey k a) := by
  intro es
  induction es with
  | nil => intro a; rfl
  | cons e rest ih =>
    intro a
    simp only [List.foldl_cons, ih, lookupKey_mergeEntries]

theorem foldl_optMerge_some (k : String) :
    ∀ (es : List (List (String × HostData))) (v : HostData),
      es.foldl (fun o e => optMerge o (lookupKey k e)) (some v)
        = some ((es.filterMap (lookupKey k)).foldl merge v) := by
  intro es
  induction es with
  | nil => intro v; rfl
  | cons e rest ih =>
    intro v
    rcases he : lookupKey k e with _ | w
    · simp only [List.foldl_cons, List.filterMap_cons_none he, he]
      rw [show optMerge (some v) none = some v from rfl]
      exact ih v
    · simp only [List.foldl_cons, List.filterMap_cons_some he, he]
      rw [show optMerge (some v) (some w) = some (merge v w) from rfl]
      exact ih (merge v w)

theorem foldl_optMerge_none (k : String) :
    ∀ es : List (List (String × HostData)),
      es.foldl (fun o e => optMerge o (lookupKey k e)) none
        = mergedAt (es.filterMap (lookupKey k)) := by
  intro es
  induction es with
  | nil => rfl
  | cons e rest ih =>
    rcases he : lookupKey k e with _ | w
    · simp only [List.foldl_cons, List.filterMap_cons_none he, he]
      rw [show optMerge none none = none from rfl]
      exact ih
    · simp only [List.foldl_cons, List.filterMap_cons_some he, he]
      rw [show optMerge none (some w) = some w from rfl, show mergedAt (w :: List.filterMap (lookupKey k) rest) = some ((List.filterMap (lookupKey k) rest).foldl merge w) from rfl]
      exact foldl_optMerge_some k rest w

/-- Master key lemma: the value the final merged data assigns to a key is
the override-merge fold of the bindings the layers give that key, in
layer order. -/
theorem valueAt_DataForDevice (fs : FS) (eng : TemplateEngine) (z : Znet) (host : NetworkHost)
    (k : String) (es : List (List (String × HostData)))
    (hes : (HierarchyForDevice fs eng z host).1.map fs.loadYaml = es.map HostData.mapping) :
    valueAt k (DataForDevice fs eng z host) = mergedAt (es.filterMap (lookupKey k)) := by
  have h1 : DataForDevice fs eng z host
      = ((HierarchyForDevice fs eng z host).1.map fs.loadYaml).foldl merge (.mapping []) := by
    rw [DataForDevice, List.foldl_map]
  rw [h1, hes, foldl_merge_mapping, valueAt, lookupKey_foldl_mergeEntries]
  rw [show lookupKey k ([] : List (String × HostData)) = none from rfl]
  exact foldl_optMerge_none k es

/-- A non-mapping source value replaces the accumulator wholesale. -/
theorem merge_nonmapping (d s : HostData) (hs : isMapping s = false) : merge d s = s := by
  apply merge.eq_2
  intro a b h1 h2
  subst h2
  simp [isMapping] at hs

/-- When the last binding a key receives is not a mapping, the merged
value at the key is exactly that last binding. -/
theorem foldl_merge_last (v : HostData) (ys : List HostData) (w : HostData)
    (hw : isMapping w = false) : (ys ++ [w]).foldl merge v = w := by
  rw [List.foldl_append]
  exact merge_nonmapping _ _ hw

theorem foldl_append_map {α β : Type} (f : α → β) :
    ∀ (ts : List α) (acc : List β),
      ts.foldl (fun acc t => acc ++ [f t]) acc = acc ++ ts.map f := by
  intro ts
  induction ts with
  | nil => intro acc; simp
  | cons t rest ih =>
    intro acc
    simp only [List.foldl_cons, List.map_cons, ih]
    simp

/-- The rendered path strings are the input strings mapped through the
engine, in order. -/
theorem TemplateStringsForDevice_eq_map (eng : TemplateEngine) (z : Znet) (host : NetworkHost)
    (templates : List String) :
    TemplateStringsForDevice eng z host templates
      = templates.map (fun t => (eng.render host t).output) := by
  rw [TemplateStringsForDevice, foldl_append_map]
  rfl

/-- What `HierarchyForDevice` keeps for one rendered path: the absolute
path, when its `stat` succeeds. -/
def hierarchyKeep (fs : FS) (z : Znet) (p : String) : Option String :=
  match fs.stat (dataAbs z p) with
  | .ok => some (dataAbs z p)
  | _ => none

/-- What `HierarchyForDevice` logs for one rendered path: a warning,
exactly when its `stat` reports not-exist. -/
def hierarchyLog (fs : FS) (z : Znet) (p : String) : Option LogEvent :=
  match fs.stat (dataAbs z p) with
  | .notExist => some (.warnDataFileMissing (dataAbs z p))
  | _ => none

theorem hierarchyFold (fs : FS) (z : Znet) :
    ∀ (ps : List String) (acc : List String × List LogEvent),
      ps.foldl
        (fun acc p =>
          let abs := dataAbs z p
          match fs.stat abs with
          | .ok => (acc.1 ++ [abs], acc.2)
          | .notExist => (acc.1, acc.2 ++ [.warnDataFileMissing abs])
          | .otherErr => acc)
        acc
      = (acc.1 ++ ps.filterMap (hierarchyKeep fs z), acc.2 ++ ps.filterMap (hierarchyLog fs z)) := by
  intro ps
  induction ps with
  | nil => intro acc; simp
  | cons p rest ih =>
    intro acc
    rcases hstat : fs.stat (dataAbs z p) with _ | _ | _
    · rw [List.filterMap_cons_some (show hierarchyKeep fs z p = some (dataAbs z p) by
          simp [hierarchyKeep, hstat]),
        List.filterMap_cons_none (show hierarchyLog fs z p = none by
          simp [hierarchyLog, hstat])]
      simp only [List.foldl_cons, hstat, ih]
      simp
    · rw [List.filterMap_cons_none (show hierarchyKeep fs z p = none by
          simp [hierarchyKeep, hstat]),
        List.filterMap_cons_some (show hierarchyLog fs z p
            = some (.warnDataFileMissing (dataAbs z p)) by
          simp [hierarchyLog, hstat])]
      simp only [List.foldl_cons, hstat, ih]
      simp
    · rw [List.filterMap_cons_none (show hierarchyKeep fs z p = none by
          simp [hierarchyKeep, hstat]),
        List.filterMap_cons_none (show hierarchyLog fs z p = none by
          simp [hierarchyLog, hstat])]
      simp only [List.foldl_cons, hstat, ih]

/-- Closed form of `HierarchyForDevice`: kept files and warnings are each
a `filterMap` over the rendered hierarchy paths. -/
theorem HierarchyForDevice_eq (fs : FS) (eng : TemplateEngine) (z : Znet) (host : NetworkHost) :
    HierarchyForDevice fs eng z host
      = ((TemplateStringsForDevice eng z host z.Data.Hierarchy).filterMap (hierarchyKeep fs z),
         (TemplateStringsForDevice eng z host z.Data.Hierarchy).filterMap (hierarchyLog fs z)) := by
  rw [HierarchyForDevice]
  rw [hierarchyFold fs z (TemplateStringsForDevice eng z host z.Data.Hierarchy) ([], [])]
  simp

/-- What `TemplatesForDevice` appends for one rendered path: the glob
matches of the existing directory, nothing otherwise. -/
def templateContribution (fs : FS) (z : Znet) (p : String) : List String :=
  match fs.stat (templateAbs z p) with
  | .ok =>
    match fs.glob (templateAbs z p ++ "/*.tmpl") with
    | .ok l => l
    | .error _ => []
  | _ => []

/-- What `TemplatesForDevice` logs for one rendered path: a warning
exactly when `stat` reports not-exist, a glob error when the directory
exists but globbing fails. -/
def templateLog (fs : FS) (z : Znet) (p : String) : Option LogEvent :=
  match fs.stat (templateAbs z p) with
  | .ok =>
    match fs.glob (templateAbs z p ++ "/*.tmpl") with
    | .ok _ => none
    | .error _ => some (.errGlob (templateAbs z p))
  | .notExist => some (.warnTemplatePathMissing (templateAbs z p))
  | .otherErr => none

theorem templatesFold (fs : FS) (z : Znet) :
    ∀ (ps : List String) (acc : List String × List LogEvent),
      ps.foldl
        (fun acc p =>
          let abs := templateAbs z p
          match fs.stat abs with
          | .ok =>
            match fs.glob (abs ++ "/*.tmpl") with
            | .error _ => (acc.1, acc.2 ++ [.errGlob abs])
            | .ok foundFiles => (acc.1 ++ foundFiles, acc.2)
          | .notExist => (acc.1, acc.2 ++ [.warnTemplatePathMissing abs])
          | .otherErr => acc)
        acc
      = (acc.1 ++ ps.flatMap (templateContribution fs z),
         acc.2 ++ ps.filterMap (templateLog fs z)) := by
  intro ps
  induction ps with
  | nil => intro acc; simp
  | cons p rest ih =>
    intro acc
    rw [List.flatMap_cons]
    rcases hstat : fs.stat (templateAbs z p) with _ | _ | _
    · rcases hglob : fs.glob (templateAbs z p ++ "/*.tmpl") with e | l
      · rw [List.filterMap_cons_some (show templateLog fs z p = some (.errGlob (templateAbs z p)) by
            simp [templateLog, hstat, hglob]),
          show templateContribution fs z p = [] by simp [templateContribution, hstat, hglob]]
        simp only [List.foldl_cons, hstat, hglob, ih]
        simp
      · rw [List.filterMap_cons_none (show templateLog fs z p = none by
            simp [templateLog, hstat, hglob]),
          show templateContribution fs z p = l by simp [templateContribution, hstat, hglob]]
        simp only [List.foldl_cons, hstat, hglob, ih]
        simp
    · rw [List.filterMap_cons_some (show templateLog fs z p
            = some (.warnTemplatePathMissing (templateAbs z p)) by
          simp [templateLog, hstat]),
        show templateContribution fs z p = [] by simp [templateContribution, hstat]]
      simp only [List.foldl_cons, hstat, ih]
      simp
    · rw [List.filterMap_cons_none (show templateLog fs z p = none by
          simp [templateLog, hstat]),
        show templateContribution fs z p = [] by simp [templateContribution, hstat]]
      simp only [List.foldl_cons, hstat, ih]
      simp

/-- Closed form of `TemplatesForDevice`: collected files are the
concatenation of per-entry glob contributions, logs a `filterMap`, both
over the rendered template paths in order. -/
theorem TemplatesForDevice_eq (fs : FS) (eng : TemplateEngine) (z : Znet) (host : NetworkHost) :
    TemplatesForDevice fs eng z host
      = ((TemplateStringsForDevice eng z host z.Data.TemplatePaths).flatMap
           (templateContribution fs z),
         (TemplateStringsForDevice eng z host z.Data.TemplatePaths).filterMap
           (templateLog fs z)) := by
  rw [TemplatesForDevice]
  rw [templatesFold fs z (TemplateStringsForDevice eng z host z.Data.TemplatePaths) ([], [])]
  simp

/-! ## Concrete sample environment, used by the witnesses -/

/-- A template engine whose rendering is the identity on the template
string (a template with no interpolation expressions). -/
def sampleEngine : TemplateEngine :=
  ⟨fun _ t => ⟨t, none, none⟩⟩

/-- A concrete configuration: hierarchy `common.yaml`, `r1.yaml`,
`missing.yaml`; template paths `base`, `nodir`. -/
def sampleZ : Znet :=
  ⟨"etc", ⟨"user", "key"⟩, ⟨["common.yaml", "r1.yaml", "missing.yaml"], ["base", "nodir"],
    "data", "templates"⟩⟩

/-- A concrete host. -/
def sampleHost : NetworkHost :=
  ⟨"r1", "r1.example.net", .null⟩

/-- Entries of the sample `common.yaml` layer. -/
def sampleCommonEntries : List (String × HostData) :=
  [("site", .scalar "east")]

/-- Entries of the sample `r1.yaml` layer. -/
def sampleR1Entries : List (String × HostData) :=
  [("site", .scalar "west"), ("role", .scalar "edge")]

/-- A concrete filesystem: the two data files and the `base` template
directory exist, everything else does not. -/
def sampleFS : FS where
  stat := fun p =>
    if p = "etc/data/common.yaml" ∨ p = "etc/data/r1.yaml" ∨ p = "etc/templates/base" then
      .ok
    else
      .notExist
  glob := fun pat =>
    if pat = "etc/templates/base/*.tmpl" then
      .ok ["etc/templates/base/a.tmpl", "etc/templates/base/b.tmpl"]
    else
      .ok []
  readFile := fun _ => .ok "B"
  loadYaml := fun p =>
    if p = "etc/data/common.yaml" then .mapping sampleCommonEntries
    else if p = "etc/data/r1.yaml" then .mapping sampleR1Entries
    else .mapping []

/-- A filesystem on which every `stat` fails with an error that is not a
not-exist error (for example a permission error). -/
def sampleFSErr : FS where
  stat := fun _ => .otherErr
  glob := fun _ => .ok []
  readFile := fun _ => .error "permission denied"
  loadYaml := fun _ => .mapping []

/-- A session whose diff comes back empty. -/
def sampleEnvEmptyDiff : SessionEnv :=
  ⟨none, none, "", none, none, none, none⟩

/-- A session whose diff reports changes. -/
def sampleEnvBigDiff : SessionEnv :=
  ⟨none, none, "[edit interfaces]", none, none, none, none⟩

/-! ## The claims -/

/-- C2: for every invocation of `ConfigureNetworkHost` (from the point a
device session handle was successfully obtained), the session close is
scheduled and runs on every exit path — here, whatever the session
responses, the diff outcome and the commit flag, the operation trace
contains exactly one `close`, and it is the last operation. -/
theorem sessionClosedExactlyOnce (fs : FS) (eng : TemplateEngine) (env : SessionEnv) (z : Znet)
    (host : NetworkHost) (commitFlag : Bool) :
    ((ConfigureNetworkHost fs eng env z host commitFlag).2.2).count SessionOp.close = 1
    ∧ ((ConfigureNetworkHost fs eng env z host commitFlag).2.2).getLast?
        = some SessionOp.close := by
  by_cases hd : env.diffResult.length > 1 <;> cases commitFlag <;>
    simp [ConfigureNetworkHost, hd, List.count_append, List.count_cons]

/-- C5: `TemplateStringsForDevice` returns a list of the same length and
order as its input; each entry is the engine's (possibly degraded) output
for the corresponding input entry, so one entry's render failure never
aborts the remaining entries. -/
theorem templateStringsTotalOrdered (eng : TemplateEngine) (z : Znet) (host : NetworkHost)
    (templates : List String) :
    (TemplateStringsForDevice eng z host templates).length = templates.length
    ∧ ∀ i : Nat,
        (TemplateStringsForDevice eng z host templates)[i]?
          = (templates[i]?).map (fun t => (eng.render host t).output) := by
  rw [TemplateStringsForDevice_eq_map]
  exact ⟨by simp, fun i => List.getElem?_map _ _ i⟩

/-- C7: `TemplatesForDevice` returns the concatenation, over the rendered
template-path entries in spec order, of the glob matches of each existing
directory (glob order within an entry); non-existent directories
contribute nothing — `templateContribution` is empty for them by
definition. -/
theorem templatesConcatInSpecOrder (fs : FS) (eng : TemplateEngine) (z : Znet)
    (host : NetworkHost) (p : String) (hp : fs.stat (templateAbs z p) = .notExist) :
    (TemplatesForDevice fs eng z host).1
      = (TemplateStringsForDevice eng z host z.Data.TemplatePaths).flatMap
          (templateContribution fs z)
    ∧ templateContribution fs z p = [] := by
  constructor
  · rw [TemplatesForDevice_eq]
  · simp [templateContribution, hp]

/-- Witness for C7 on the sample environment: the collected template
files are exactly the glob matches of the one existing directory, and the
non-existent `nodir` entry contributes nothing. -/
theorem templatesConcatInSpecOrder_witness :
    (TemplatesForDevice sampleFS sampleEngine sampleZ sampleHost).1
      = (TemplateStringsForDevice sampleEngine sampleZ sampleHost
          sampleZ.Data.TemplatePaths).flatMap (templateContribution sampleFS sampleZ)
    ∧ templateContribution sampleFS sampleZ "nodir" = [] :=
  templatesConcatInSpecOrder sampleFS sampleEngine sampleZ sampleHost "nodir" rfl

/-- C9: `ConfigureNetworkHost` changes only the host's `Data` field
(assigning the merged data); the host's identity fields and the receiver
`Znet` are unchanged. -/
theorem configureHostFrame (fs : FS) (eng : TemplateEngine) (env : SessionEnv) (z : Znet)
    (host : NetworkHost) (commitFlag : Bool) :
    (ConfigureNetworkHost fs eng env z host commitFlag).1 = z
    ∧ (ConfigureNetworkHost fs eng env z host commitFlag).2.1.Name = host.Name
    ∧ (ConfigureNetworkHost fs eng env z host commitFlag).2.1.HostName = host.HostName
    ∧ (ConfigureNetworkHost fs eng env z host commitFlag).2.1.Data
        = DataForDevice fs eng z host :=
  ⟨rfl, rfl, rfl, rfl⟩

/-- C1: when the resolved hierarchy loads as layers `es` (all mappings)
and a key `k` is present in more than one layer (its bindings, in layer
order, being `v :: vs` with `vs ≠ []`), the final merged value at `k` is
the override-merge fold of those bindings — so mappings merge recursively
key-by-key — and when the binding contributed by the last defining layer
is a sequence or a scalar (not a mapping), it replaces everything before
it wholesale: the final value at `k` is exactly that later binding. -/
theorem laterLayerWinsAtKey (fs : FS) (eng : TemplateEngine) (z : Znet) (host : NetworkHost)
    (k : String) (es : List (List (String × HostData))) (v : HostData) (vs : List HostData)
    (hes : (HierarchyForDevice fs eng z host).1.map fs.loadYaml = es.map HostData.mapping)
    (hvals : es.filterMap (lookupKey k) = v :: vs)
    (hmulti : vs ≠ []) :
    valueAt k (DataForDevice fs eng z host) = some (vs.foldl merge v)
    ∧ ∀ w : HostData, vs.getLast? = some w → isMapping w = false →
        valueAt k (DataForDevice fs eng z host) = some w := by
  have h1 := valueAt_DataForDevice fs eng z host k es hes
  rw [hvals] at h1
  refine ⟨h1, ?_⟩
  intro w hlast hw
  rcases List.getLast?_eq_some_iff.1 hlast with ⟨ys, rfl⟩
  rw [h1]
  simp only [mergedAt]
  rw [foldl_merge_last v ys w hw]

/-- Witness for C1 on the sample environment (the spec's Scenario A plus
a skipped missing layer): `site` is defined by both layers, and the later
layer's scalar `"west"` is the merged value. -/
theorem laterLayerWinsAtKey_witness :
    valueAt "site" (DataForDevice sampleFS sampleEngine sampleZ sampleHost)
      = some (HostData.scalar "west") :=
  (laterLayerWinsAtKey sampleFS sampleEngine sampleZ sampleHost "site"
      [sampleCommonEntries, sampleR1Entries] (.scalar "east") [.scalar "west"]
      rfl rfl (by simp)).2
    (.scalar "west") rfl rfl

/-- C8: a key defined in exactly one layer appears with its value
unchanged in the final merged data. -/
theorem singleLayerKeyUnchanged (fs : FS) (eng : TemplateEngine) (z : Znet) (host : NetworkHost)
    (k : String) (es : List (List (String × HostData))) (v : HostData)
    (hes : (HierarchyForDevice fs eng z host).1.map fs.loadYaml = es.map HostData.mapping)
    (hvals : es.filterMap (lookupKey k) = [v]) :
    valueAt k (DataForDevice fs eng z host) = some v := by
  have h1 := valueAt_DataForDevice fs eng z host k es hes
  rw [hvals] at h1
  exact h1

/-- Witness for C8 on the sample environment: `role` is defined only by
the `r1.yaml` layer and survives unchanged. -/
theorem singleLayerKeyUnchanged_witness :
    valueAt "role" (DataForDevice sampleFS sampleEngine sampleZ sampleHost)
      = some (HostData.scalar "edge") :=
  singleLayerKeyUnchanged sampleFS sampleEngine sampleZ sampleHost "role"
    [sampleCommonEntries, sampleR1Entries] (.scalar "edge") rfl rfl

/-- C3: when the computed diff is empty or trivial (not longer than one
byte, the code's minimal no-changes marker), neither a commit nor the
rollback config operation is submitted, but unlock and the session close
still occur. -/
theorem trivialDiffSkipsCommitAndRollback (fs : FS) (eng : TemplateEngine) (env : SessionEnv)
    (z : Znet) (host : NetworkHost) (commitFlag : Bool)
    (hdiff : env.diffResult.length ≤ 1) :
    SessionOp.commit ∉ (ConfigureNetworkHost fs eng env z host commitFlag).2.2
    ∧ SessionOp.config (.cmd "rollback") "text" false
        ∉ (ConfigureNetworkHost fs eng env z host commitFlag).2.2
    ∧ SessionOp.unlock ∈ (ConfigureNetworkHost fs eng env z host commitFlag).2.2
    ∧ SessionOp.close ∈ (ConfigureNetworkHost fs eng env z host commitFlag).2.2 := by
  have hd : ¬ env.diffResult.length > 1 := by omega
  simp [ConfigureNetworkHost, hd]

/-- Witness for C3: with an empty diff on the sample environment, no
commit and no rollback appear in the trace, while unlock and close do. -/
theorem trivialDiffSkipsCommitAndRollback_witness :
    SessionOp.commit
        ∉ (ConfigureNetworkHost sampleFS sampleEngine sampleEnvEmptyDiff sampleZ sampleHost
            true).2.2
    ∧ SessionOp.config (.cmd "rollback") "text" false
        ∉ (ConfigureNetworkHost sampleFS sampleEngine sampleEnvEmptyDiff sampleZ sampleHost
            true).2.2
    ∧ SessionOp.unlock
        ∈ (ConfigureNetworkHost sampleFS sampleEngine sampleEnvEmptyDiff sampleZ sampleHost
            true).2.2
    ∧ SessionOp.close
        ∈ (ConfigureNetworkHost sampleFS sampleEngine sampleEnvEmptyDiff sampleZ sampleHost
            true).2.2 :=
  trivialDiffSkipsCommitAndRollback sampleFS sampleEngine sampleEnvEmptyDiff sampleZ sampleHost
    true (by decide)

/-- C4: when the computed diff is non-trivial (longer than one byte),
exactly one of commit or rollback is submitted: the commit operation when
`commitFlag` is true, the rollback config operation when it is false. -/
theorem nontrivialDiffCommitXorRollback (fs : FS) (eng : TemplateEngine) (env : SessionEnv)
    (z : Znet) (host : NetworkHost) (commitFlag : Bool)
    (hdiff : env.diffResult.length > 1) :
    ((ConfigureNetworkHost fs eng env z host commitFlag).2.2).count SessionOp.commit
      + ((ConfigureNetworkHost fs eng env z host commitFlag).2.2).count
          (SessionOp.config (.cmd "rollback") "text" false) = 1
    ∧ (commitFlag = true →
        SessionOp.commit ∈ (ConfigureNetworkHost fs eng env z host commitFlag).2.2
        ∧ SessionOp.config (.cmd "rollback") "text" false
            ∉ (ConfigureNetworkHost fs eng env z host commitFlag).2.2)
    ∧ (commitFlag = false →
        SessionOp.config (.cmd "rollback") "text" false
            ∈ (ConfigureNetworkHost fs eng env z host commitFlag).2.2
        ∧ SessionOp.commit ∉ (ConfigureNetworkHost fs eng env z host commitFlag).2.2) := by
  cases commitFlag <;>
    simp [ConfigureNetworkHost, hdiff, List.count_append, List.count_cons]

/-- Witness for C4: with a non-trivial diff and `commitFlag = false` on
the sample environment, the rollback config operation is submitted
exactly once and no commit appears. -/
theorem nontrivialDiffCommitXorRollback_witness :
    ((ConfigureNetworkHost sampleFS sampleEngine sampleEnvBigDiff sampleZ sampleHost
        false).2.2).count SessionOp.commit
      + ((ConfigureNetworkHost sampleFS sampleEngine sampleEnvBigDiff sampleZ sampleHost
          false).2.2).count (SessionOp.config (.cmd "rollback") "text" false) = 1
    ∧ (false = true →
        SessionOp.commit
            ∈ (ConfigureNetworkHost sampleFS sampleEngine sampleEnvBigDiff sampleZ sampleHost
                false).2.2
        ∧ SessionOp.config (.cmd "rollback") "text" false
            ∉ (ConfigureNetworkHost sampleFS sampleEngine sampleEnvBigDiff sampleZ sampleHost
                false).2.2)
    ∧ (false = false →
        SessionOp.config (.cmd "rollback") "text" false
            ∈ (ConfigureNetworkHost sampleFS sampleEngine sampleEnvBigDiff sampleZ sampleHost
                false).2.2
        ∧ SessionOp.commit
            ∉ (ConfigureNetworkHost sampleFS sampleEngine sampleEnvBigDiff sampleZ sampleHost
                false).2.2) :=
  nontrivialDiffCommitXorRollback sampleFS sampleEngine sampleEnvBigDiff sampleZ sampleHost
    false (by decide)

theorem hierarchy_files_filter (fs : FS) (z : Znet) :
    ∀ ps : List String,
      ps.filterMap (hierarchyKeep fs z)
        = (ps.map (dataAbs z)).filter (fun a => decide (fs.stat a = .ok)) := by
  intro ps
  induction ps with
  | nil => rfl
  | cons p rest ih =>
    rcases hstat : fs.stat (dataAbs z p) with _ | _ | _ <;>
      simp [hierarchyKeep, hstat, ih, List.filter_cons]

/-- C6: a hierarchy entry whose resolved path does not exist is dropped
from the result with a warning, a template-path entry whose resolved
directory does not exist contributes nothing and warns, and in both
functions the remaining entries are still resolved: the hierarchy result
is exactly the order-preserving filter of the existing resolved paths,
and the template result is exactly the concatenation of the per-entry
contributions. -/
theorem skipOnMissingEntries (fs : FS) (eng : TemplateEngine) (z : Znet) (host : NetworkHost)
    (p q : String)
    (hp : p ∈ TemplateStringsForDevice eng z host z.Data.Hierarchy)
    (hq : q ∈ TemplateStringsForDevice eng z host z.Data.TemplatePaths)
    (hps : fs.stat (dataAbs z p) = .notExist)
    (hqs : fs.stat (templateAbs z q) = .notExist) :
    (HierarchyForDevice fs eng z host).1
      = ((TemplateStringsForDevice eng z host z.Data.Hierarchy).map (dataAbs z)).filter
          (fun a => decide (fs.stat a = .ok))
    ∧ (∀ f ∈ (HierarchyForDevice fs eng z host).1, fs.stat f = .ok)
    ∧ dataAbs z p ∉ (HierarchyForDevice fs eng z host).1
    ∧ LogEvent.warnDataFileMissing (dataAbs z p) ∈ (HierarchyForDevice fs eng z host).2
    ∧ (TemplatesForDevice fs eng z host).1
      = (TemplateStringsForDevice eng z host z.Data.TemplatePaths).flatMap
          (templateContribution fs z)
    ∧ templateContribution fs z q = []
    ∧ LogEvent.warnTemplatePathMissing (templateAbs z q)
        ∈ (TemplatesForDevice fs eng z host).2 := by
  have hfiles : (HierarchyForDevice fs eng z host).1
      = ((TemplateStringsForDevice eng z host z.Data.Hierarchy).map (dataAbs z)).filter
          (fun a => decide (fs.stat a = .ok)) := by
    rw [HierarchyForDevice_eq]
    exact hierarchy_files_filter fs z _
  refine ⟨hfiles, ?_, ?_, ?_, ?_, ?_, ?_⟩
  · intro f hf
    rw [hfiles] at hf
    have := List.of_mem_filter hf
    simpa using this
  · intro hmem
    rw [hfiles] at hmem
    have := List.of_mem_filter hmem
    rw [hps] at this
    simp at this
  · rw [HierarchyForDevice_eq]
    exact List.mem_filterMap.2 ⟨p, hp, by simp [hierarchyLog, hps]⟩
  · rw [TemplatesForDevice_eq]
  · simp [templateContribution, hqs]
  · rw [TemplatesForDevice_eq]
    exact List.mem_filterMap.2 ⟨q, hq, by simp [templateLog, hqs]⟩

/-- Witness for C6 on the sample environment: the `missing.yaml`
hierarchy entry and the `nodir` template entry do not exist, are dropped
with warnings, and the existing entries still resolve. -/
theorem skipOnMissingEntries_witness :
    (HierarchyForDevice sampleFS sampleEngine sampleZ sampleHost).1
      = ((TemplateStringsForDevice sampleEngine sampleZ sampleHost
            sampleZ.Data.Hierarchy).map (dataAbs sampleZ)).filter
          (fun a => decide (sampleFS.stat a = .ok))
    ∧ (∀ f ∈ (HierarchyForDevice sampleFS sampleEngine sampleZ sampleHost).1,
        sampleFS.stat f = .ok)
    ∧ dataAbs sampleZ "missing.yaml"
        ∉ (HierarchyForDevice sampleFS sampleEngine sampleZ sampleHost).1
    ∧ LogEvent.warnDataFileMissing (dataAbs sampleZ "missing.yaml")
        ∈ (HierarchyForDevice sampleFS sampleEngine sampleZ sampleHost).2
    ∧ (TemplatesForDevice sampleFS sampleEngine sampleZ sampleHost).1
      = (TemplateStringsForDevice sampleEngine sampleZ sampleHost
          sampleZ.Data.TemplatePaths).flatMap (templateContribution sampleFS sampleZ)
    ∧ templateContribution sampleFS sampleZ "nodir" = []
    ∧ LogEvent.warnTemplatePathMissing (templateAbs sampleZ "nodir")
        ∈ (TemplatesForDevice sampleFS sampleEngine sampleZ sampleHost).2 :=
  skipOnMissingEntries sampleFS sampleEngine sampleZ sampleHost "missing.yaml" "nodir"
    (by decide) (by decide) rfl rfl

/-- C10: a rendered entry whose `stat` fails with an error that is
neither success nor not-exist is dropped silently by both functions: the
path is not kept, the directory contributes nothing, and no warning and
no glob-error event about it is logged — the warning branch fires only
for the not-exist case. -/
theorem statOtherErrSilentlyDropped (fs : FS) (eng : TemplateEngine) (z : Znet)
    (host : NetworkHost) (p q : String)
    (hp : p ∈ TemplateStringsForDevice eng z host z.Data.Hierarchy)
    (hq : q ∈ TemplateStringsForDevice eng z host z.Data.TemplatePaths)
    (hps : fs.stat (dataAbs z p) = .otherErr)
    (hqs : fs.stat (templateAbs z q) = .otherErr) :
    dataAbs z p ∉ (HierarchyForDevice fs eng z host).1
    ∧ LogEvent.warnDataFileMissing (dataAbs z p) ∉ (HierarchyForDevice fs eng z host).2
    ∧ templateContribution fs z q = []
    ∧ LogEvent.warnTemplatePathMissing (templateAbs z q)
        ∉ (TemplatesForDevice fs eng z host).2
    ∧ LogEvent.errGlob (templateAbs z q) ∉ (TemplatesForDevice fs eng z host).2 := by
  refine ⟨?_, ?_, ?_, ?_, ?_⟩
  · rw [HierarchyForDevice_eq]
    intro hmem
    rcases List.mem_filterMap.1 hmem with ⟨p', _, hkeep⟩
    rcases hstat' : fs.stat (dataAbs z p') with _ | _ | _ <;>
      simp only [hierarchyKeep, hstat'] at hkeep
    · rw [Option.some.inj hkeep] at hstat'
      rw [hstat'] at hps
      exact StatResult.noConfusion hps
    · exact Option.noConfusion hkeep
    · exact Option.noConfusion hkeep
  · rw [HierarchyForDevice_eq]
    intro hmem
    rcases List.mem_filterMap.1 hmem with ⟨p', _, hlog⟩
    rcases hstat' : fs.stat (dataAbs z p') with _ | _ | _ <;>
      simp only [hierarchyLog, hstat'] at hlog
    · exact Option.noConfusion hlog
    · rw [LogEvent.warnDataFileMissing.inj (Option.some.inj hlog)] at hstat'
      rw [hstat'] at hps
      exact StatResult.noConfusion hps
    · exact Option.noConfusion hlog
  · simp [templateContribution, hqs]
  · rw [TemplatesForDevice_eq]
    intro hmem
    rcases List.mem_filterMap.1 hmem with ⟨q', _, hlog⟩
    rcases hstat' : fs.stat (templateAbs z q') with _ | _ | _ <;>
      simp only [templateLog, hstat'] at hlog
    · rcases hglob : fs.glob (templateAbs z q' ++ "/*.tmpl") with e | l <;>
        simp only [hglob] at hlog
      · exact LogEvent.noConfusion (Option.some.inj hlog)
      · exact Option.noConfusion hlog
    · rw [LogEvent.warnTemplatePathMissing.inj (Option.some.inj hlog)] at hstat'
      rw [hstat'] at hqs
      exact StatResult.noConfusion hqs
    · exact Option.noConfusion hlog
  · rw [TemplatesForDevice_eq]
    intro hmem
    rcases List.mem_filterMap.1 hmem with ⟨q', _, hlog⟩
    rcases hstat' : fs.stat (templateAbs z q') with _ | _ | _ <;>
      simp only [templateLog, hstat'] at hlog
    · rcases hglob : fs.glob (templateAbs z q' ++ "/*.tmpl") with e | l <;>
        simp only [hglob] at hlog
      · rw [LogEvent.errGlob.inj (Option.some.inj hlog)] at hstat'
        rw [hstat'] at hqs
        exact StatResult.noConfusion hqs
      · exact Option.noConfusion hlog
    · exact LogEvent.noConfusion (Option.some.inj hlog)
    · exact Option.noConfusion hlog

/-- Witness for C10 on the all-errors filesystem: every `stat` fails with
a non-not-exist error, so `common.yaml` and `base` are dropped with no
warning and no glob-error event. -/
theorem statOtherErrSilentlyDropped_witness :
    dataAbs sampleZ "common.yaml"
        ∉ (HierarchyForDevice sampleFSErr sampleEngine sampleZ sampleHost).1
    ∧ LogEvent.warnDataFileMissing (dataAbs sampleZ "common.yaml")
        ∉ (HierarchyForDevice sampleFSErr sampleEngine sampleZ sampleHost).2
    ∧ templateContribution sampleFSErr sampleZ "base" = []
    ∧ LogEvent.warnTemplatePathMissing (templateAbs sampleZ "base")
        ∉ (TemplatesForDevice sampleFSErr sampleEngine sampleZ sampleHost).2
    ∧ LogEvent.errGlob (templateAbs sampleZ "base")
        ∉ (TemplatesForDevice sampleFSErr sampleEngine sampleZ sampleHost).2 :=
  statOtherErrSilentlyDropped sampleFSErr sampleEngine sampleZ sampleHost "common.yaml" "base"
    (by decide) (by decide) rfl rfl

end Znet
